import Mathlib

/-!
Shallow embedding of the Taskist task-manager service.

Two server variants are embedded separately:
  * `Pg` — the Postgres-backed server (`src/server/index.js`);
  * `Sq` — the SQLite-backed server (`src/unnamed/part_000`),
    whose `tasks.completed` column is an integer (0/1) converted to a
    boolean with `!!` in the list handler.

The auth helpers (`createToken`, `requireAuth`) are textually identical in
both source files and are embedded once.  JWT signing is modelled by an
injective encoding of the payload together with the secret; bcrypt hashing
and comparison are abstract parameters (`Crypto`).  Timestamps are natural
numbers counting seconds (`expiresIn: "2h"` = 7200 seconds); `tasks.created_at`
/ `users.created_at` columns are set by the database and never read by any
handler, so they are omitted from the state.

The React client's derived list (`visibleTasks` in `src/client/src/TaskApp.jsx`)
is embedded as `Client.visibleTasks`; JavaScript's `Array.prototype.sort`
(stable since ES2019) with comparator `c` is modelled as the stable insertion
sort by the relation `fun a b => c a b ≤ 0`.
-/

/-- Model of JavaScript `String.prototype.trim`: strip leading and trailing
whitespace (defined over the character list so that it evaluates by kernel
reduction). -/
def jsTrim (s : String) : String :=
  ⟨((s.data.dropWhile Char.isWhitespace).reverse.dropWhile Char.isWhitespace).reverse⟩

/-- Model of JavaScript `String.prototype.toLowerCase` (ASCII case mapping). -/
def jsToLower (s : String) : String :=
  ⟨s.data.map Char.toLower⟩

/-- Model of JavaScript `String.prototype.includes` with a single-character
needle, as in `email.includes("@")`. -/
def jsIncludes (s : String) (c : Char) : Bool :=
  s.data.contains c

/-- Abstract model of bcryptjs: `hash` is `bcrypt.hashSync`, `check` is
`bcrypt.compareSync password hash`. -/
structure Crypto where
  hash : String → String
  check : String → String → Bool

/-- A row of the `users` table (both variants). -/
structure User where
  id : Nat
  email : String
  password_hash : String
deriving DecidableEq, Repr

/-- Payload of a signed JWT: `jwt.sign({ id, email }, secret, { expiresIn: "2h" })`
adds `iat` and `exp` claims; `sig` models the signature over payload + secret. -/
structure Token where
  uid : Nat
  email : String
  iat : Nat
  exp : Nat
  sig : String
deriving DecidableEq, Repr

/-- The authenticated identity placed in `req.user` by `requireAuth`. -/
structure Identity where
  id : Nat
  email : String
deriving DecidableEq, Repr

/-- Model of the HMAC signature: an injective encoding of payload and secret. -/
def signPayload (secret : String) (uid : Nat) (email : String) (iat exp : Nat) : String :=
  secret ++ "|" ++ toString uid ++ "|" ++ email ++ "|" ++ toString iat ++ "|" ++ toString exp

/-- Source: `createToken` (src/server/index.js lines 61-65, src/unnamed/part_000
lines 87-91): signs `{ id, email }` with the server secret and a 2-hour expiry. -/
def createToken (secret : String) (now : Nat) (uid : Nat) (email : String) : Token :=
  { uid := uid, email := email, iat := now, exp := now + 7200,
    sig := signPayload secret uid email now (now + 7200) }

/-- Model of `jwt.verify(token, JWT_SECRET)`: fails on a bad signature or when
the current time has reached the `exp` claim, otherwise yields the payload. -/
def verifyToken (secret : String) (now : Nat) (t : Token) : Option Identity :=
  if t.sig ≠ signPayload secret t.uid t.email t.iat t.exp then none
  else if t.exp ≤ now then none
  else some { id := t.uid, email := t.email }

/-- A JSON value as far as the `typeof` checks in the update handler can
distinguish them. -/
inductive JVal where
  | jstr (s : String)
  | jnum (n : Int)
  | jbool (b : Bool)
  | jnull
deriving DecidableEq, Repr

/-- Body of `PUT /api/tasks/:id`: each field may be absent or hold a JSON value
of any type; the handler acts only on `typeof title === "string"` and
`typeof completed === "boolean"`. -/
structure UpdateBody where
  title : Option JVal
  completed : Option JVal
deriving DecidableEq, Repr

/-- The serialized shape of a task in responses: `{ id, title, completed }`. -/
structure TaskOut where
  id : Nat
  title : String
  completed : Bool
deriving DecidableEq, Repr

/-- An HTTP response as produced by the route handlers. -/
inductive Resp where
  | text (s : String)
  | health
  | token (status : Nat) (t : Token)
  | tasks (ts : List TaskOut)
  | created (t : TaskOut)
  | success
  | err (status : Nat) (msg : String)
deriving DecidableEq, Repr

/-- Source: `requireAuth` (src/server/index.js lines 67-80, src/unnamed/part_000
lines 93-106): a missing/non-Bearer header is a 401 "Missing token"; a token
failing `jwt.verify` is a 401 "Invalid or expired token". -/
def requireAuth (secret : String) (now : Nat) (auth : Option Token) : Except Resp Identity :=
  match auth with
  | none => .error (.err 401 "Missing token")
  | some t =>
    match verifyToken secret now t with
    | none => .error (.err 401 "Invalid or expired token")
    | some u => .ok u

/-- One request to a route of the API table. -/
inductive Req where
  | root
  | health
  | register (email password : String)
  | login (email password : String)
  | listTasks (auth : Option Token)
  | create (auth : Option Token) (title : String)
  | update (auth : Option Token) (tid : Nat) (body : UpdateBody)
  | delete (auth : Option Token) (tid : Nat)

namespace Pg

/-- A row of the Postgres `tasks` table: `completed` is a genuine boolean. -/
structure Task where
  id : Nat
  owner_id : Nat
  title : String
  completed : Bool
deriving DecidableEq, Repr

/-- The Postgres database state; `nextUserId`/`nextTaskId` model the `SERIAL`
sequences. -/
structure Db where
  users : List User
  tasks : List Task
  nextUserId : Nat
  nextTaskId : Nat
deriving DecidableEq, Repr

/-- State after `initDb` on a fresh database. -/
def initDb : Db := { users := [], tasks := [], nextUserId := 1, nextTaskId := 1 }

/-- Serialization `SELECT id, title, completed`. -/
def toOut (t : Task) : TaskOut := { id := t.id, title := t.title, completed := t.completed }

/-- Source: `GET /api/tasks` (src/server/index.js lines 150-167):
`SELECT id, title, completed FROM tasks WHERE owner_id = $1 ORDER BY id DESC`. -/
def listFor (db : Db) (uid : Nat) : List TaskOut :=
  (List.insertionSort (fun a b : Task => b.id ≤ a.id)
    (db.tasks.filter (fun t => decide (t.owner_id = uid)))).map toOut

/-- Source: `POST /api/auth/register` (src/server/index.js lines 85-120). -/
def register (c : Crypto) (secret : String) (now : Nat) (db : Db)
    (emailRaw passwordRaw : String) : Db × Resp :=
  let email := jsToLower (jsTrim emailRaw)
  let password := passwordRaw
  if ¬ jsIncludes email '@' then (db, .err 400 "Enter a valid email.")
  else if password.length < 4 then (db, .err 400 "Password must be at least 4 characters.")
  else
    match db.users.find? (fun u => u.email == email) with
    | some _ => (db, .err 409 "Email already registered.")
    | none =>
      let uid := db.nextUserId
      let u : User := { id := uid, email := email, password_hash := c.hash password }
      ({ db with users := db.users ++ [u], nextUserId := uid + 1 },
       .token 201 (createToken secret now uid email))

/-- Source: `POST /api/auth/login` (src/server/index.js lines 123-147). -/
def login (c : Crypto) (secret : String) (now : Nat) (db : Db)
    (emailRaw passwordRaw : String) : Db × Resp :=
  let email := jsToLower (jsTrim emailRaw)
  let password := passwordRaw
  match db.users.find? (fun u => u.email == email) with
  | none => (db, .err 401 "Invalid credentials.")
  | some u =>
    if ¬ c.check password u.password_hash then (db, .err 401 "Invalid credentials.")
    else (db, .token 200 (createToken secret now u.id u.email))

/-- Source: `POST /api/tasks` (src/server/index.js lines 170-192). -/
def create (db : Db) (uid : Nat) (titleRaw : String) : Db × Resp :=
  let title := jsTrim titleRaw
  if title.length < 2 then (db, .err 400 "Title must be at least 2 characters.")
  else
    let t : Task := { id := db.nextTaskId, owner_id := uid, title := title, completed := false }
    ({ db with tasks := db.tasks ++ [t], nextTaskId := db.nextTaskId + 1 },
     .created (toOut t))

/-- Number of rows matched by `WHERE id = $tid AND owner_id = $uid`
(the `rowCount` of an UPDATE/DELETE with that clause). -/
def matchedCount (tasks : List Task) (uid tid : Nat) : Nat :=
  (tasks.filter (fun t => decide (t.id = tid ∧ t.owner_id = uid))).length

/-- The statement `UPDATE tasks SET title = $1 WHERE id = $2 AND owner_id = $3`,
returning the new state and the row count. -/
def updTitle (db : Db) (uid tid : Nat) (newTitle : String) : Db × Nat :=
  let ts := db.tasks.map
    (fun t => if t.id = tid ∧ t.owner_id = uid then { t with title := newTitle } else t)
  ({ db with tasks := ts }, matchedCount db.tasks uid tid)

/-- The statement `UPDATE tasks SET completed = $1 WHERE id = $2 AND owner_id = $3`. -/
def updCompleted (db : Db) (uid tid : Nat) (b : Bool) : Db × Nat :=
  let ts := db.tasks.map
    (fun t => if t.id = tid ∧ t.owner_id = uid then { t with completed := b } else t)
  ({ db with tasks := ts }, matchedCount db.tasks uid tid)

/-- Final `changed === 0` check of the update handler. -/
def updateFinish (db : Db) (changed : Nat) : Db × Resp :=
  if changed = 0 then (db, .err 404 "Task not found.") else (db, .success)

/-- Second half of the update handler: the `typeof completed === "boolean"` block
followed by the `changed` check. -/
def updateCompletedStep (db : Db) (uid tid : Nat) (body : UpdateBody) (changed : Nat) :
    Db × Resp :=
  match body.completed with
  | some (.jbool b) =>
    let r := updCompleted db uid tid b
    updateFinish r.1 (changed + r.2)
  | _ => updateFinish db changed

/-- Source: `PUT /api/tasks/:id` (src/server/index.js lines 195-239): the title
block (with its early 400 on a short trimmed title) runs before the completed
block; `changed` accumulates both row counts. -/
def update (db : Db) (uid tid : Nat) (body : UpdateBody) : Db × Resp :=
  match body.title with
  | some (.jstr s) =>
    let trimmed := jsTrim s
    if trimmed.length < 2 then (db, .err 400 "Title must be at least 2 characters.")
    else
      let r := updTitle db uid tid trimmed
      updateCompletedStep r.1 uid tid body r.2
  | _ => updateCompletedStep db uid tid body 0

/-- Source: `DELETE /api/tasks/:id` (src/server/index.js lines 242-262):
`DELETE FROM tasks WHERE id = $1 AND owner_id = $2`, 404 on zero rows. -/
def delete (db : Db) (uid tid : Nat) : Db × Resp :=
  let n := matchedCount db.tasks uid tid
  let ts := db.tasks.filter (fun t => ! decide (t.id = tid ∧ t.owner_id = uid))
  ({ db with tasks := ts }, if n = 0 then .err 404 "Task not found." else .success)

/-- Dispatch of one request through the Postgres variant's routes. -/
def step (c : Crypto) (secret : String) (now : Nat) (db : Db) : Req → Db × Resp
  | .root => (db, .text "API running ✅")
  | .health => (db, .health)
  | .register e p => register c secret now db e p
  | .login e p => login c secret now db e p
  | .listTasks auth =>
    match requireAuth secret now auth with
    | .error r => (db, r)
    | .ok ident => (db, .tasks (listFor db ident.id))
  | .create auth title =>
    match requireAuth secret now auth with
    | .error r => (db, r)
    | .ok ident => create db ident.id title
  | .update auth tid body =>
    match requireAuth secret now auth with
    | .error r => (db, r)
    | .ok ident => update db ident.id tid body
  | .delete auth tid =>
    match requireAuth secret now auth with
    | .error r => (db, r)
    | .ok ident => delete db ident.id tid

/-- A whole trace of requests, collecting the responses. -/
def run (c : Crypto) (secret : String) (now : Nat) : Db → List Req → Db × List Resp
  | db, [] => (db, [])
  | db, r :: rs =>
    let s := step c secret now db r
    let rest := run c secret now s.1 rs
    (rest.1, s.2 :: rest.2)

end Pg

namespace Sq

/-- A row of the SQLite `tasks` table: `completed` is an `INTEGER` column
(0/1), converted to a boolean only on output. -/
structure Task where
  id : Nat
  owner_id : Nat
  title : String
  completed : Int
deriving DecidableEq, Repr

/-- The SQLite database state; counters model `AUTOINCREMENT` rowids. -/
structure Db where
  users : List User
  tasks : List Task
  nextUserId : Nat
  nextTaskId : Nat
deriving DecidableEq, Repr

/-- State of a freshly created SQLite file after the `CREATE TABLE` statements. -/
def initDb : Db := { users := [], tasks := [], nextUserId := 1, nextTaskId := 1 }

/-- Row mapping `(t) => ({ ...t, completed: !!t.completed })` of the list
handler (src/unnamed/part_000 line 196). -/
def toOut (t : Task) : TaskOut :=
  { id := t.id, title := t.title, completed := decide (t.completed ≠ 0) }

/-- Source: `GET /api/tasks` (src/unnamed/part_000 lines 193-198) using
`stmtGetAllTasksForUser` (lines 118-123). -/
def listFor (db : Db) (uid : Nat) : List TaskOut :=
  (List.insertionSort (fun a b : Task => b.id ≤ a.id)
    (db.tasks.filter (fun t => decide (t.owner_id = uid)))).map toOut

/-- Source: `POST /api/auth/register` (src/unnamed/part_000 lines 151-174). -/
def register (c : Crypto) (secret : String) (now : Nat) (db : Db)
    (emailRaw passwordRaw : String) : Db × Resp :=
  let email := jsToLower (jsTrim emailRaw)
  let password := passwordRaw
  if ¬ jsIncludes email '@' then (db, .err 400 "Enter a valid email.")
  else if password.length < 4 then (db, .err 400 "Password must be at least 4 characters.")
  else
    match db.users.find? (fun u => u.email == email) with
    | some _ => (db, .err 409 "Email already registered.")
    | none =>
      let uid := db.nextUserId
      let u : User := { id := uid, email := email, password_hash := c.hash password }
      ({ db with users := db.users ++ [u], nextUserId := uid + 1 },
       .token 201 (createToken secret now uid email))

/-- Source: `POST /api/auth/login` (src/unnamed/part_000 lines 177-191). -/
def login (c : Crypto) (secret : String) (now : Nat) (db : Db)
    (emailRaw passwordRaw : String) : Db × Resp :=
  let email := jsToLower (jsTrim emailRaw)
  let password := passwordRaw
  match db.users.find? (fun u => u.email == email) with
  | none => (db, .err 401 "Invalid credentials.")
  | some u =>
    if ¬ c.check password u.password_hash then (db, .err 401 "Invalid credentials.")
    else (db, .token 200 (createToken secret now u.id u.email))

/-- Source: `POST /api/tasks` (src/unnamed/part_000 lines 201-212); the row is
inserted with `completed = 0` and the response echoes `completed: false`. -/
def create (db : Db) (uid : Nat) (titleRaw : String) : Db × Resp :=
  let title := jsTrim titleRaw
  if title.length < 2 then (db, .err 400 "Title must be at least 2 characters.")
  else
    let t : Task := { id := db.nextTaskId, owner_id := uid, title := title, completed := 0 }
    ({ db with tasks := db.tasks ++ [t], nextTaskId := db.nextTaskId + 1 },
     .created { id := t.id, title := title, completed := false })

/-- Row count of a statement scoped by `WHERE id = ? AND owner_id = ?`. -/
def matchedCount (tasks : List Task) (uid tid : Nat) : Nat :=
  (tasks.filter (fun t => decide (t.id = tid ∧ t.owner_id = uid))).length

/-- The statement `stmtUpdateTitle` (src/unnamed/part_000 lines 135-139). -/
def updTitle (db : Db) (uid tid : Nat) (newTitle : String) : Db × Nat :=
  let ts := db.tasks.map
    (fun t => if t.id = tid ∧ t.owner_id = uid then { t with title := newTitle } else t)
  ({ db with tasks := ts }, matchedCount db.tasks uid tid)

/-- The statement `stmtUpdateCompleted` (src/unnamed/part_000 lines 141-145),
run with `completed ? 1 : 0`. -/
def updCompleted (db : Db) (uid tid : Nat) (v : Int) : Db × Nat :=
  let ts := db.tasks.map
    (fun t => if t.id = tid ∧ t.owner_id = uid then { t with completed := v } else t)
  ({ db with tasks := ts }, matchedCount db.tasks uid tid)

/-- Final `changed === 0` check of the update handler. -/
def updateFinish (db : Db) (changed : Nat) : Db × Resp :=
  if changed = 0 then (db, .err 404 "Task not found.") else (db, .success)

/-- The `typeof completed === "boolean"` block followed by the `changed` check. -/
def updateCompletedStep (db : Db) (uid tid : Nat) (body : UpdateBody) (changed : Nat) :
    Db × Resp :=
  match body.completed with
  | some (.jbool b) =>
    let r := updCompleted db uid tid (if b then 1 else 0)
    updateFinish r.1 (changed + r.2)
  | _ => updateFinish db changed

/-- Source: `PUT /api/tasks/:id` (src/unnamed/part_000 lines 215-238). -/
def update (db : Db) (uid tid : Nat) (body : UpdateBody) : Db × Resp :=
  match body.title with
  | some (.jstr s) =>
    let trimmed := jsTrim s
    if trimmed.length < 2 then (db, .err 400 "Title must be at least 2 characters.")
    else
      let r := updTitle db uid tid trimmed
      updateCompletedStep r.1 uid tid body r.2
  | _ => updateCompletedStep db uid tid body 0

/-- Source: `DELETE /api/tasks/:id` (src/unnamed/part_000 lines 241-248). -/
def delete (db : Db) (uid tid : Nat) : Db × Resp :=
  let n := matchedCount db.tasks uid tid
  let ts := db.tasks.filter (fun t => ! decide (t.id = tid ∧ t.owner_id = uid))
  ({ db with tasks := ts }, if n = 0 then .err 404 "Task not found." else .success)

/-- Dispatch of one request through the SQLite variant's routes. -/
def step (c : Crypto) (secret : String) (now : Nat) (db : Db) : Req → Db × Resp
  | .root => (db, .text "API running ✅")
  | .health => (db, .health)
  | .register e p => register c secret now db e p
  | .login e p => login c secret now db e p
  | .listTasks auth =>
    match requireAuth secret now auth with
    | .error r => (db, r)
    | .ok ident => (db, .tasks (listFor db ident.id))
  | .create auth title =>
    match requireAuth secret now auth with
    | .error r => (db, r)
    | .ok ident => create db ident.id title
  | .update auth tid body =>
    match requireAuth secret now auth with
    | .error r => (db, r)
    | .ok ident => update db ident.id tid body
  | .delete auth tid =>
    match requireAuth secret now auth with
    | .error r => (db, r)
    | .ok ident => delete db ident.id tid

/-- A whole trace of requests, collecting the responses. -/
def run (c : Crypto) (secret : String) (now : Nat) : Db → List Req → Db × List Resp
  | db, [] => (db, [])
  | db, r :: rs =>
    let s := step c secret now db r
    let rest := run c secret now s.1 rs
    (rest.1, s.2 :: rest.2)

end Sq

/-- Abstraction of a SQLite task row as a Postgres task row (`completed ≠ 0`
becomes the boolean). -/
def absTask (t : Sq.Task) : Pg.Task :=
  { id := t.id, owner_id := t.owner_id, title := t.title,
    completed := decide (t.completed ≠ 0) }

/-- Abstraction of the whole SQLite state as a Postgres state. -/
def absDb (db : Sq.Db) : Pg.Db :=
  { users := db.users, tasks := db.tasks.map absTask,
    nextUserId := db.nextUserId, nextTaskId := db.nextTaskId }

namespace Client

/-- A task as held in the React client state: the extended fields may be
absent (the servers in this repo do not persist them). -/
structure CTask where
  id : Nat
  title : String
  completed : Bool
  priority : Option String
  status : Option String
  dueDate : Option String
deriving DecidableEq, Repr

/-- The lookup `priorityRank[p]` with `{ high: 3, medium: 2, low: 1 }`
(src/unnamed/part_001 line 197). -/
def priorityRank (p : String) : Option Nat :=
  if p = "high" then some 3
  else if p = "medium" then some 2
  else if p = "low" then some 1
  else none

/-- The expression `priorityRank[t.priority ?? "medium"] ?? 2`. -/
def rankOf (t : CTask) : Nat := (priorityRank (t.priority.getD "medium")).getD 2

/-- Due-date key `t.dueDate ?? t.due_date ?? ""` (the embedded client state
only carries `dueDate`). -/
def dueKey (t : CTask) : String := t.dueDate.getD ""

/-- Relation form of the due-date comparator of src/unnamed/part_001 lines
211-218: `a` may precede `b` iff the comparator value is ≤ 0 (missing dates
sort last). -/
def dueLe (a b : CTask) : Prop :=
  if dueKey a = "" ∧ dueKey b = "" then True
  else if dueKey a = "" then False
  else if dueKey b = "" then True
  else ¬ dueKey b < dueKey a

instance : DecidableRel dueLe := fun a b => by unfold dueLe; infer_instance

/-- Source: the `visibleTasks` memo of the client (src/unnamed/part_001 lines
196-222): filter by status, then a stable sort by the selected comparator. -/
def visibleTasks (filterStatus sortBy : String) (tasks : List CTask) : List CTask :=
  let filtered := tasks.filter
    (fun t => if filterStatus = "all" then true else decide (t.status.getD "todo" = filterStatus))
  if sortBy = "priority" then
    List.insertionSort (fun a b => rankOf b ≤ rankOf a) filtered
  else if sortBy = "due_date" then
    List.insertionSort dueLe filtered
  else
    List.insertionSort (fun a b : CTask => b.id ≤ a.id) filtered

end Client

/-! ## Generic helper lemmas -/

/-- An ordered insert commutes with a map along which the order is preserved. -/
theorem orderedInsert_map {α β : Type} (f : α → β) (r : α → α → Prop) (r' : β → β → Prop)
    [DecidableRel r] [DecidableRel r'] (h : ∀ a b, r a b ↔ r' (f a) (f b)) (a : α)
    (l : List α) :
    List.orderedInsert r' (f a) (l.map f) = (List.orderedInsert r a l).map f := by
  induction l with
  | nil => rfl
  | cons b t ih =>
    by_cases hab : r a b
    · simp [List.orderedInsert, hab, (h a b).mp hab]
    · have : ¬ r' (f a) (f b) := fun hc => hab ((h a b).mpr hc)
      simp [List.orderedInsert, hab, this, ih]

/-- Insertion sort commutes with a map along which the order is preserved. -/
theorem insertionSort_map {α β : Type} (f : α → β) (r : α → α → Prop) (r' : β → β → Prop)
    [DecidableRel r] [DecidableRel r'] (h : ∀ a b, r a b ↔ r' (f a) (f b)) (l : List α) :
    List.insertionSort r' (l.map f) = (List.insertionSort r l).map f := by
  induction l with
  | nil => rfl
  | cons a t ih => simp only [List.map_cons, List.insertionSort, ih,
      orderedInsert_map f r r' h]

namespace Pg

/-- The row count of an owner-scoped statement is zero exactly when no task
matches both the id and the owner. -/
theorem matchedCount_eq_zero_iff (ts : List Task) (uid tid : Nat) :
    matchedCount ts uid tid = 0 ↔ ∀ t ∈ ts, ¬ (t.id = tid ∧ t.owner_id = uid) := by
  simp [matchedCount, List.length_eq_zero, List.filter_eq_nil_iff]

/-- A conditional row update over a list with no matching row is the identity. -/
theorem map_upd_of_no_match (ts : List Task) (uid tid : Nat) (f : Task → Task)
    (h : ∀ t ∈ ts, ¬ (t.id = tid ∧ t.owner_id = uid)) :
    ts.map (fun t => if t.id = tid ∧ t.owner_id = uid then f t else t) = ts := by
  induction ts with
  | nil => rfl
  | cons a l ih =>
    have ha := h a (List.mem_cons_self a l)
    simp only [List.map_cons, if_neg ha, List.cons.injEq, true_and]
    exact ih fun t ht => h t (List.mem_cons_of_mem a ht)

end Pg

/-- A small concrete state used to instantiate theorems with hypotheses:
user 1 owns task 1, a different user (id 2) owns task 2. -/
def sampleDb : Pg.Db :=
  { users := [{ id := 1, email := "a@b.c", password_hash := "h:good" }],
    tasks := [{ id := 1, owner_id := 1, title := "Buy milk", completed := false },
              { id := 2, owner_id := 2, title := "Other task", completed := true }],
    nextUserId := 2, nextTaskId := 3 }

/-- A concrete instance of the abstract bcrypt interface, for witnesses. -/
def sampleCrypto : Crypto :=
  { hash := fun p => "h:" ++ p, check := fun p h => h == "h:" ++ p }

/-- C7: an update whose title is a string trimming to fewer than 2 characters
returns the 400 ValidationError before executing any storage mutation: the
state is returned unchanged, whatever the rest of the body contains. -/
theorem update_validation_is_atomic (db : Pg.Db) (uid tid : Nat) (body : UpdateBody)
    (s : String) (ht : body.title = some (.jstr s)) (hlen : (jsTrim s).length < 2) :
    Pg.update db uid tid body = (db, Resp.err 400 "Title must be at least 2 characters.") := by
  simp [Pg.update, ht, hlen]

/-- Witness for C7: updating task 1 with title " x " (trims to 1 char) and
`completed: true` changes nothing and returns 400, even though task 1 exists. -/
theorem update_validation_is_atomic_witness :
    Pg.update sampleDb 1 1 { title := some (.jstr " x "), completed := some (.jbool true) } =
      (sampleDb, Resp.err 400 "Title must be at least 2 characters.") :=
  update_validation_is_atomic sampleDb 1 1 _ " x " rfl (by decide)

/-- C10: a PUT body containing neither a string under `title` nor a boolean
under `completed` makes the handler fall through both `typeof` guards, so
`changed` stays 0 and the response is the 404 NotFoundError — not a 400 —
with the state unchanged, even when the caller owns a task with that id. -/
theorem update_untyped_body_not_found (db : Pg.Db) (uid tid : Nat) (body : UpdateBody)
    (ht : ∀ s, body.title ≠ some (.jstr s)) (hc : ∀ b, body.completed ≠ some (.jbool b)) :
    Pg.update db uid tid body = (db, Resp.err 404 "Task not found.") := by
  obtain ⟨bt, bc⟩ := body
  have hstep : Pg.updateCompletedStep db uid tid ⟨bt, bc⟩ 0 =
      (db, Resp.err 404 "Task not found.") := by
    cases bc with
    | none => rfl
    | some v =>
      cases v with
      | jstr s => rfl
      | jnum n => rfl
      | jnull => rfl
      | jbool b => exact absurd rfl (hc b)
  cases bt with
  | none => exact hstep
  | some v =>
    cases v with
    | jstr s => exact absurd rfl (ht s)
    | jnum n => exact hstep
    | jbool b => exact hstep
    | jnull => exact hstep

/-- Witness for C10: `{ title: 42 }` against the caller's own existing task 1
yields 404 and leaves the store unchanged. -/
theorem update_untyped_body_not_found_witness :
    Pg.update sampleDb 1 1 { title := some (.jnum 42), completed := none } =
      (sampleDb, Resp.err 404 "Task not found.") :=
  update_untyped_body_not_found sampleDb 1 1 _
    (by intro s h; simp at h) (by intro b h; simp at h)

/-- C5: task creation rejects a title whose trimmed form has fewer than 2
characters with a 400 ValidationError (so "" and "a" fail, "ok" succeeds), and
on success responds 201 with the created task: generated id and
`completed = false`. -/
theorem create_title_validation :
    ∀ (db : Pg.Db) (uid : Nat) (s : String),
      ((jsTrim s).length < 2 →
        Pg.create db uid s = (db, Resp.err 400 "Title must be at least 2 characters."))
    ∧ (2 ≤ (jsTrim s).length →
        Pg.create db uid s =
          ({ db with
              tasks := db.tasks ++
                [{ id := db.nextTaskId, owner_id := uid, title := jsTrim s, completed := false }],
              nextTaskId := db.nextTaskId + 1 },
           Resp.created { id := db.nextTaskId, title := jsTrim s, completed := false }))
    ∧ (Pg.create db uid "").2 = Resp.err 400 "Title must be at least 2 characters."
    ∧ (Pg.create db uid "a").2 = Resp.err 400 "Title must be at least 2 characters."
    ∧ (Pg.create db uid "ok").2 =
        Resp.created { id := db.nextTaskId, title := "ok", completed := false } := by
  intro db uid s
  refine ⟨?_, ?_, ?_, ?_, ?_⟩
  · intro h
    simp [Pg.create, h]
  · intro h
    have h2 : ¬ (jsTrim s).length < 2 := by omega
    simp [Pg.create, h2, Pg.toOut]
  · have h : (jsTrim "").length < 2 := by decide
    simp [Pg.create, h]
  · have h : (jsTrim "a").length < 2 := by decide
    simp [Pg.create, h]
  · have h : ¬ (jsTrim "ok").length < 2 := by decide
    have ht : jsTrim "ok" = "ok" := by decide
    have h2 : ¬ ("ok" : String).length < 2 := by decide
    simp [Pg.create, h, ht, h2, Pg.toOut]

/-- Witness for C5: creating " a " (trims to 1 char) fails with 400 leaving
the store unchanged, while creating "ok" yields the 201 response with the
generated id 3 and `completed = false`. -/
theorem create_title_validation_witness :
    Pg.create sampleDb 1 " a " =
      (sampleDb, Resp.err 400 "Title must be at least 2 characters.")
    ∧ (Pg.create sampleDb 1 "ok").2 =
      Resp.created { id := 3, title := "ok", completed := false } :=
  ⟨(create_title_validation sampleDb 1 " a ").1 (by decide),
   (create_title_validation sampleDb 1 "ok").2.2.2.2⟩

/-- C2: an unknown email and a known email with a non-matching password hash
produce literally the same login response: status 401 with message
"Invalid credentials.", so the response does not reveal which check failed. -/
theorem login_uniform_error :
    ∀ (c : Crypto) (secret : String) (now : Nat) (db : Pg.Db) (e p : String),
      ((∀ u ∈ db.users, u.email ≠ jsToLower (jsTrim e)) →
        Pg.login c secret now db e p = (db, Resp.err 401 "Invalid credentials."))
    ∧ (∀ u, db.users.find? (fun v => v.email == jsToLower (jsTrim e)) = some u →
        c.check p u.password_hash = false →
        Pg.login c secret now db e p = (db, Resp.err 401 "Invalid credentials.")) := by
  intro c secret now db e p
  constructor
  · intro h
    have hf : db.users.find? (fun v => v.email == jsToLower (jsTrim e)) = none := by
      rw [List.find?_eq_none]
      intro u hu
      simpa using h u hu
    simp [Pg.login, hf]
  · intro u hf hc
    simp [Pg.login, hf, hc]

/-- Witness for C2: in the sample store (user "a@b.c" with hash of "good"),
logging in as the unknown "x@y.z" and logging in as "A@B.c " (which normalizes
to the known email) with the wrong password give the identical response. -/
theorem login_uniform_error_witness :
    Pg.login sampleCrypto "s" 0 sampleDb "x@y.z" "whatever" =
        (sampleDb, Resp.err 401 "Invalid credentials.")
    ∧ Pg.login sampleCrypto "s" 0 sampleDb "A@B.c " "bad" =
        (sampleDb, Resp.err 401 "Invalid credentials.") :=
  ⟨(login_uniform_error sampleCrypto "s" 0 sampleDb "x@y.z" "whatever").1 (by decide),
   (login_uniform_error sampleCrypto "s" 0 sampleDb "A@B.c " "bad").2
     { id := 1, email := "a@b.c", password_hash := "h:good" } (by decide) (by decide)⟩

/-- C8: a token issued at time T (by `createToken`, hence by both the register
and login routes) carries `exp = T + 7200` seconds (2 hours); verification
succeeds with the issuing identity exactly while the current time is before
the expiry, and fails from `T + 7200` on (so in particular at T + 2h + 1s).
Verification is a pure function of the token, secret and clock — the model has
no server-side revocation state. -/
theorem token_two_hour_lifetime :
    ∀ (secret : String) (uid : Nat) (email : String) (T now : Nat),
      (createToken secret T uid email).iat = T
    ∧ (createToken secret T uid email).exp = T + 7200
    ∧ (verifyToken secret now (createToken secret T uid email) =
          some { id := uid, email := email } ↔ now < T + 7200)
    ∧ (T + 7200 ≤ now → verifyToken secret now (createToken secret T uid email) = none)
    ∧ (∀ (c : Crypto) (db db' : Pg.Db) (e p : String) (st : Nat) (tok : Token),
        Pg.register c secret T db e p = (db', Resp.token st tok) → tok.exp = T + 7200)
    ∧ (∀ (c : Crypto) (db db' : Pg.Db) (e p : String) (st : Nat) (tok : Token),
        Pg.login c secret T db e p = (db', Resp.token st tok) → tok.exp = T + 7200) := by
  intro secret uid email T now
  refine ⟨rfl, rfl, ?_, ?_, ?_, ?_⟩
  · by_cases hn : T + 7200 ≤ now
    · have hv : verifyToken secret now (createToken secret T uid email) = none := by
        simp [verifyToken, createToken, hn]
      rw [hv]
      constructor
      · intro h; simp at h
      · intro h; omega
    · have hv : verifyToken secret now (createToken secret T uid email) =
          some { id := uid, email := email } := by
        simp [verifyToken, createToken, hn]
      rw [hv]
      simp
      omega
  · intro hn
    simp [verifyToken, createToken, hn]
  · intro c db db' e p st tok h
    simp only [Pg.register] at h
    by_cases h1 : jsIncludes (jsToLower (jsTrim e)) '@'
    · rw [if_neg (not_not_intro h1)] at h
      by_cases h2 : p.length < 4
      · rw [if_pos h2] at h
        simp at h
      · rw [if_neg h2] at h
        cases hf : db.users.find? (fun u => u.email == jsToLower (jsTrim e)) with
        | some u =>
          rw [hf] at h
          simp at h
        | none =>
          rw [hf] at h
          simp only [Prod.mk.injEq, Resp.token.injEq] at h
          obtain ⟨-, -, htok⟩ := h
          subst htok
          rfl
    · rw [if_pos h1] at h
      simp at h
  · intro c db db' e p st tok h
    simp only [Pg.login] at h
    cases hf : db.users.find? (fun u => u.email == jsToLower (jsTrim e)) with
    | none =>
      rw [hf] at h
      simp at h
    | some u =>
      rw [hf] at h
      by_cases h1 : c.check p u.password_hash
      · simp only [h1, not_true_eq_false, if_neg, Prod.mk.injEq, Resp.token.injEq,
          ite_false] at h
        obtain ⟨-, -, htok⟩ := h
        subst htok
        rfl
      · simp [h1] at h

/-- Witness for C8: a token issued at T = 0 verifies at t = 5 as its user and
fails to verify at t = 7201 (i.e. 2h + 1s after issuance). -/
theorem token_two_hour_lifetime_witness :
    verifyToken "s" 5 (createToken "s" 0 9 "a@b") = some { id := 9, email := "a@b" }
    ∧ verifyToken "s" 7201 (createToken "s" 0 9 "a@b") = none :=
  ⟨((token_two_hour_lifetime "s" 9 "a@b" 0 5).2.2.1).mpr (by decide),
   (token_two_hour_lifetime "s" 9 "a@b" 0 7201).2.2.2.1 (by decide)⟩

/-- C4: the register contract. The checks run in order: 400 if the trimmed,
lowercased email lacks "@"; 400 if the password is shorter than 4; 409 if the
normalized email is already stored; otherwise the user is persisted
(normalized email, hashed password) and a fresh token is returned with 201.
Consequently a second registration whose email trims and lowercases to that of
any previously successful registration fails with the 409 ConflictError. -/
theorem register_contract :
    ∀ (c : Crypto) (secret : String) (now : Nat) (db : Pg.Db) (e p : String),
      (¬ jsIncludes (jsToLower (jsTrim e)) '@' →
        Pg.register c secret now db e p = (db, Resp.err 400 "Enter a valid email."))
    ∧ (jsIncludes (jsToLower (jsTrim e)) '@' → p.length < 4 →
        Pg.register c secret now db e p =
          (db, Resp.err 400 "Password must be at least 4 characters."))
    ∧ (jsIncludes (jsToLower (jsTrim e)) '@' → 4 ≤ p.length →
        (∃ u ∈ db.users, u.email = jsToLower (jsTrim e)) →
        Pg.register c secret now db e p = (db, Resp.err 409 "Email already registered."))
    ∧ (jsIncludes (jsToLower (jsTrim e)) '@' → 4 ≤ p.length →
        (∀ u ∈ db.users, u.email ≠ jsToLower (jsTrim e)) →
        Pg.register c secret now db e p =
          ({ db with
              users := db.users ++
                [{ id := db.nextUserId, email := jsToLower (jsTrim e),
                   password_hash := c.hash p }],
              nextUserId := db.nextUserId + 1 },
           Resp.token 201 (createToken secret now db.nextUserId (jsToLower (jsTrim e)))))
    ∧ (∀ (db' : Pg.Db) (tok : Token),
        Pg.register c secret now db e p = (db', Resp.token 201 tok) →
        ∀ (e2 p2 : String), jsToLower (jsTrim e2) = jsToLower (jsTrim e) →
          4 ≤ p2.length →
          Pg.register c secret now db' e2 p2 =
            (db', Resp.err 409 "Email already registered.")) := by
  intro c secret now db e p
  have hbad1 : ∀ (db0 : Pg.Db) (e0 p0 : String), ¬ jsIncludes (jsToLower (jsTrim e0)) '@' →
      Pg.register c secret now db0 e0 p0 = (db0, Resp.err 400 "Enter a valid email.") := by
    intro db0 e0 p0 h1
    simp [Pg.register, h1]
  have hbad2 : ∀ (db0 : Pg.Db) (e0 p0 : String), jsIncludes (jsToLower (jsTrim e0)) '@' →
      p0.length < 4 →
      Pg.register c secret now db0 e0 p0 =
        (db0, Resp.err 400 "Password must be at least 4 characters.") := by
    intro db0 e0 p0 h1 h2
    simp [Pg.register, h1, h2]
  have hconf : ∀ (db0 : Pg.Db) (e0 p0 : String), jsIncludes (jsToLower (jsTrim e0)) '@' →
      4 ≤ p0.length → (∃ u ∈ db0.users, u.email = jsToLower (jsTrim e0)) →
      Pg.register c secret now db0 e0 p0 = (db0, Resp.err 409 "Email already registered.") := by
    intro db0 e0 p0 h1 h2 hex
    obtain ⟨u, hu, he⟩ := hex
    have h2' : ¬ p0.length < 4 := by omega
    cases hf : db0.users.find? (fun v => v.email == jsToLower (jsTrim e0)) with
    | none =>
      rw [List.find?_eq_none] at hf
      exact absurd (by simp [he]) (hf u hu)
    | some v =>
      simp [Pg.register, h1, h2', hf]
  have hok : ∀ (db0 : Pg.Db) (e0 p0 : String), jsIncludes (jsToLower (jsTrim e0)) '@' →
      4 ≤ p0.length → (∀ u ∈ db0.users, u.email ≠ jsToLower (jsTrim e0)) →
      Pg.register c secret now db0 e0 p0 =
        ({ db0 with
            users := db0.users ++
              [{ id := db0.nextUserId, email := jsToLower (jsTrim e0),
                 password_hash := c.hash p0 }],
            nextUserId := db0.nextUserId + 1 },
         Resp.token 201 (createToken secret now db0.nextUserId (jsToLower (jsTrim e0)))) := by
    intro db0 e0 p0 h1 h2 hall
    have h2' : ¬ p0.length < 4 := by omega
    have hf : db0.users.find? (fun v => v.email == jsToLower (jsTrim e0)) = none := by
      rw [List.find?_eq_none]
      intro u hu
      simpa using hall u hu
    simp [Pg.register, h1, h2', hf]
  refine ⟨hbad1 db e p, hbad2 db e p, hconf db e p, hok db e p, ?_⟩
  intro db' tok h e2 p2 he2 hp2
  by_cases h1 : jsIncludes (jsToLower (jsTrim e)) '@'
  · by_cases h2 : p.length < 4
    · rw [hbad2 db e p h1 h2] at h
      simp at h
    · by_cases hex : ∃ u ∈ db.users, u.email = jsToLower (jsTrim e)
      · rw [hconf db e p h1 (by omega) hex] at h
        simp at h
      · push_neg at hex
        rw [hok db e p h1 (by omega) hex] at h
        have hdb : db' =
            { db with
                users := db.users ++
                  [{ id := db.nextUserId, email := jsToLower (jsTrim e),
                     password_hash := c.hash p }],
                nextUserId := db.nextUserId + 1 } := by
          have := congrArg Prod.fst h
          simpa using this.symm
        subst hdb
        apply hconf _ e2 p2 (by rw [he2]; exact h1) hp2
        refine ⟨{ id := db.nextUserId, email := jsToLower (jsTrim e),
                  password_hash := c.hash p }, ?_, ?_⟩
        · simp
        · simpa using he2.symm
  · rw [hbad1 db e p h1] at h
    simp at h

/-- Witness for C4: in the sample store (user "a@b.c" registered), a fresh
registration of "New@User.com " succeeds with 201, and re-registering
" NEW@user.COM" afterwards fails with the 409 conflict. -/
theorem register_contract_witness :
    Pg.register sampleCrypto "s" 0 sampleDb "bad-email" "pass" =
        (sampleDb, Resp.err 400 "Enter a valid email.")
    ∧ Pg.register sampleCrypto "s" 0 sampleDb "x@y.z" "pw" =
        (sampleDb, Resp.err 400 "Password must be at least 4 characters.")
    ∧ Pg.register sampleCrypto "s" 0 sampleDb " A@B.C " "pass" =
        (sampleDb, Resp.err 409 "Email already registered.") :=
  ⟨(register_contract sampleCrypto "s" 0 sampleDb "bad-email" "pass").1 (by decide),
   (register_contract sampleCrypto "s" 0 sampleDb "x@y.z" "pw").2.1 (by decide) (by decide),
   (register_contract sampleCrypto "s" 0 sampleDb " A@B.C " "pass").2.2.1 (by decide) (by decide)
     ⟨{ id := 1, email := "a@b.c", password_hash := "h:good" }, by decide, by decide⟩⟩

/-- C1: cross-user isolation. If task `t` belongs to a user other than the
authenticated `uid` (task ids being unique, as the primary key guarantees),
then `t` never appears in the task list for `uid`; any update addressed at
`t.id` under `uid`'s identity leaves the whole store unchanged and — whenever
the request is not rejected earlier by title validation — fails with the 404
NotFoundError; and deletion of `t.id` under `uid`'s identity likewise changes
nothing and returns the 404 NotFoundError, even though the exact id of `t` was
supplied. -/
theorem cross_user_isolation (db : Pg.Db) (t : Pg.Task) (uid : Nat)
    (hids : db.tasks.Pairwise (fun a b => a.id ≠ b.id))
    (ht : t ∈ db.tasks) (how : t.owner_id ≠ uid) :
    (∀ o ∈ Pg.listFor db uid, o.id ≠ t.id)
    ∧ (∀ body : UpdateBody,
        (Pg.update db uid t.id body).1 = db
        ∧ ((∀ s, body.title = some (.jstr s) → 2 ≤ (jsTrim s).length) →
            (Pg.update db uid t.id body).2 = Resp.err 404 "Task not found."))
    ∧ Pg.delete db uid t.id = (db, Resp.err 404 "Task not found.") := by
  have hkey : ∀ t' ∈ db.tasks, ¬ (t'.id = t.id ∧ t'.owner_id = uid) := by
    intro t' ht' hc
    obtain ⟨hid, hown⟩ := hc
    by_cases he : t' = t
    · subst he
      exact how hown
    · have hsymm : Symmetric (fun a b : Pg.Task => a.id ≠ b.id) :=
        fun x y h hxy => h hxy.symm
      exact (hids.forall hsymm ht' ht he) hid
  have hm : Pg.matchedCount db.tasks uid t.id = 0 :=
    (Pg.matchedCount_eq_zero_iff _ _ _).mpr hkey
  have hTitle : ∀ s, Pg.updTitle db uid t.id s = (db, 0) := by
    intro s
    simp [Pg.updTitle, hm, Pg.map_upd_of_no_match db.tasks uid t.id _ hkey]
  have hCompleted : ∀ b, Pg.updCompleted db uid t.id b = (db, 0) := by
    intro b
    simp [Pg.updCompleted, hm, Pg.map_upd_of_no_match db.tasks uid t.id _ hkey]
  refine ⟨?_, ?_, ?_⟩
  · intro o ho
    rw [Pg.listFor, List.mem_map] at ho
    obtain ⟨t', hmem, rfl⟩ := ho
    rw [List.mem_insertionSort, List.mem_filter] at hmem
    obtain ⟨htasks, hpred⟩ := hmem
    intro hoid
    exact hkey t' htasks ⟨hoid, by simpa using hpred⟩
  · intro body
    obtain ⟨bt, bc⟩ := body
    have hstep0 : Pg.updateCompletedStep db uid t.id ⟨bt, bc⟩ 0 =
        (db, Resp.err 404 "Task not found.") := by
      cases bc with
      | none => rfl
      | some v =>
        cases v with
        | jstr s => rfl
        | jnum n => rfl
        | jnull => rfl
        | jbool b => simp [Pg.updateCompletedStep, hCompleted, Pg.updateFinish]
    cases bt with
    | none => simp [Pg.update, hstep0]
    | some v =>
      cases v with
      | jstr s =>
        by_cases hlen : (jsTrim s).length < 2
        · refine ⟨by simp [Pg.update, hlen], ?_⟩
          intro hv
          exact absurd (hv s rfl) (by omega)
        · refine ⟨?_, ?_⟩ <;> simp [Pg.update, hlen, hTitle, hstep0]
      | jnum n => simp [Pg.update, hstep0]
      | jbool b => simp [Pg.update, hstep0]
      | jnull => simp [Pg.update, hstep0]
  · have hfilter : db.tasks.filter
        (fun t' => ! decide (t'.id = t.id ∧ t'.owner_id = uid)) = db.tasks := by
      rw [List.filter_eq_self]
      intro a ha
      simp [hkey a ha]
    have hd : Pg.delete db uid t.id =
        ({ users := db.users,
           tasks := db.tasks.filter (fun t' => ! decide (t'.id = t.id ∧ t'.owner_id = uid)),
           nextUserId := db.nextUserId, nextTaskId := db.nextTaskId },
         if Pg.matchedCount db.tasks uid t.id = 0 then Resp.err 404 "Task not found."
         else Resp.success) := rfl
    rw [hd, hfilter, hm]
    simp

/-- Witness for C1: user 1 cannot see, update or delete task 2 (owned by
user 2) of the sample store, even addressing it by its exact id. -/
theorem cross_user_isolation_witness :
    (∀ o ∈ Pg.listFor sampleDb 1, o.id ≠ 2)
    ∧ (Pg.update sampleDb 1 2 { title := some (.jstr "Hijacked"), completed := some (.jbool false) }).1
        = sampleDb
    ∧ Pg.delete sampleDb 1 2 = (sampleDb, Resp.err 404 "Task not found.") := by
  have h := cross_user_isolation sampleDb
    { id := 2, owner_id := 2, title := "Other task", completed := true } 1
    (by decide) (by decide) (by decide)
  exact ⟨h.1, (h.2.1 _).1, h.2.2⟩

namespace Pg

/-- The combined per-row effect of one PUT body: set the trimmed title if a
string title is provided, set the flag if a boolean `completed` is provided. -/
def applyBody (body : UpdateBody) (t : Task) : Task :=
  let t1 := match body.title with
    | some (.jstr s) => { t with title := jsTrim s }
    | _ => t
  match body.completed with
  | some (.jbool b) => { t1 with completed := b }
  | _ => t1

/-- Whether the body carries a string-typed title (the `typeof` guard). -/
def hasTitleStr (body : UpdateBody) : Bool :=
  match body.title with
  | some (.jstr _) => true
  | _ => false

/-- Whether the body carries a boolean-typed `completed` (the `typeof` guard). -/
def hasCompletedBool (body : UpdateBody) : Bool :=
  match body.completed with
  | some (.jbool _) => true
  | _ => false

/-- A row update that does not touch `id` or `owner_id` leaves the row count of
the owner-scoped WHERE clause unchanged. -/
theorem matchedCount_map_pres (ts : List Task) (uid tid : Nat) (f : Task → Task)
    (hf : ∀ t, (f t).id = t.id ∧ (f t).owner_id = t.owner_id) :
    matchedCount
      (ts.map (fun t => if t.id = tid ∧ t.owner_id = uid then f t else t)) uid tid =
      matchedCount ts uid tid := by
  rw [matchedCount, matchedCount, List.filter_map, List.length_map]
  congr 1
  apply List.filter_congr
  intro t ht
  by_cases hP : t.id = tid ∧ t.owner_id = uid
  · simp [Function.comp, hP, (hf t).1, (hf t).2]
  · simp [Function.comp, hP]

/-- Two successive conditional row updates collapse to one conditional update,
provided the first preserves the condition. -/
theorem map_map_if (ts : List Task) (p : Task → Prop) [DecidablePred p]
    (f g : Task → Task) (hp : ∀ t, p t → p (f t)) :
    ((ts.map fun t => if p t then f t else t).map fun t => if p t then g t else t) =
      ts.map fun t => if p t then g (f t) else t := by
  rw [List.map_map]
  apply List.map_congr_left
  intro a _
  by_cases h : p a
  · simp [Function.comp, h, hp a h]
  · simp [Function.comp, h]

/-- The owner-scoped row count is positive exactly when a matching row exists. -/
theorem matchedCount_ne_zero_iff (ts : List Task) (uid tid : Nat) :
    matchedCount ts uid tid ≠ 0 ↔ ∃ t ∈ ts, t.id = tid ∧ t.owner_id = uid := by
  rw [Ne, matchedCount_eq_zero_iff]
  push_neg
  constructor
  · rintro ⟨t, ht, hP⟩
    exact ⟨t, ht, hP⟩
  · rintro ⟨t, ht, hP⟩
    exact ⟨t, ht, hP⟩

end Pg

namespace Pg

/-- The final `changed === 0` check, phrased against any proposition equivalent
to `changed = 0`. -/
theorem updateFinish_resp (db' : Db) (n : Nat) (E : Prop) [Decidable E]
    (h : n = 0 ↔ ¬ E) :
    updateFinish db' n = (db', if E then Resp.success else Resp.err 404 "Task not found.") := by
  by_cases hE : E
  · have hn : ¬ n = 0 := fun h0 => (h.mp h0) hE
    simp [updateFinish, hn, hE]
  · have hn : n = 0 := h.mpr hE
    simp [updateFinish, hn, hE]

end Pg

/-- C3: owner-scoped update and delete. Provided the supplied title (if any)
passes validation, the update rewrites exactly the rows matching
`id = tid AND owner_id = uid` — applying the provided fields independently and
leaving every other row untouched — and responds with the 404 NotFoundError
exactly when zero rows are affected by every requested field change (no
matching row, or no typed field supplied); delete removes exactly the
owner-scoped row and yields the 404 NotFoundError on zero affected rows. -/
theorem update_delete_owner_scoped (db : Pg.Db) (uid tid : Nat) (body : UpdateBody)
    (hv : ∀ s, body.title = some (.jstr s) → 2 ≤ (jsTrim s).length) :
    Pg.update db uid tid body =
      ({ users := db.users,
         tasks := db.tasks.map
           (fun t => if t.id = tid ∧ t.owner_id = uid then Pg.applyBody body t else t),
         nextUserId := db.nextUserId, nextTaskId := db.nextTaskId },
       if (∃ t ∈ db.tasks, t.id = tid ∧ t.owner_id = uid)
           ∧ (Pg.hasTitleStr body ∨ Pg.hasCompletedBool body)
       then Resp.success else Resp.err 404 "Task not found.")
    ∧ Pg.delete db uid tid =
      ({ users := db.users,
         tasks := db.tasks.filter (fun t => ! decide (t.id = tid ∧ t.owner_id = uid)),
         nextUserId := db.nextUserId, nextTaskId := db.nextTaskId },
       if ∃ t ∈ db.tasks, t.id = tid ∧ t.owner_id = uid
       then Resp.success else Resp.err 404 "Task not found.") := by
  have hiff : (Pg.matchedCount db.tasks uid tid = 0) ↔
      ¬ ∃ t ∈ db.tasks, t.id = tid ∧ t.owner_id = uid := by
    rw [Pg.matchedCount_eq_zero_iff]
    push_neg
    rfl
  constructor
  · obtain ⟨bt, bc⟩ := body
    cases bt with
    | some v =>
      cases v with
      | jstr s =>
        have hlen : ¬ (jsTrim s).length < 2 := by
          have := hv s rfl
          omega
        have hm2 : Pg.matchedCount
            (db.tasks.map (fun t => if t.id = tid ∧ t.owner_id = uid
              then { t with title := jsTrim s } else t)) uid tid =
            Pg.matchedCount db.tasks uid tid :=
          Pg.matchedCount_map_pres db.tasks uid tid _ (fun t => ⟨rfl, rfl⟩)
        cases bc with
        | some w =>
          cases w with
          | jbool b =>
            simp only [Pg.update, Pg.updTitle, Pg.updateCompletedStep, Pg.updCompleted,
              hlen, if_false, hm2]
            rw [Pg.map_map_if db.tasks (fun t => t.id = tid ∧ t.owner_id = uid)
                  (fun t => { t with title := jsTrim s })
                  (fun t => { t with completed := b }) (fun t h => h)]
            rw [Pg.updateFinish_resp _ _ _
                  (by rw [← hiff]; omega : (Pg.matchedCount db.tasks uid tid +
                    Pg.matchedCount db.tasks uid tid = 0) ↔
                    ¬ ∃ t ∈ db.tasks, t.id = tid ∧ t.owner_id = uid)]
            simp [Pg.hasTitleStr, Pg.applyBody]
          | jstr s2 =>
            simp only [Pg.update, Pg.updTitle, Pg.updateCompletedStep, hlen, if_false]
            rw [Pg.updateFinish_resp _ _ _ hiff]
            simp [Pg.hasTitleStr, Pg.applyBody]
          | jnum n =>
            simp only [Pg.update, Pg.updTitle, Pg.updateCompletedStep, hlen, if_false]
            rw [Pg.updateFinish_resp _ _ _ hiff]
            simp [Pg.hasTitleStr, Pg.applyBody]
          | jnull =>
            simp only [Pg.update, Pg.updTitle, Pg.updateCompletedStep, hlen, if_false]
            rw [Pg.updateFinish_resp _ _ _ hiff]
            simp [Pg.hasTitleStr, Pg.applyBody]
        | none =>
          simp only [Pg.update, Pg.updTitle, Pg.updateCompletedStep, hlen, if_false]
          rw [Pg.updateFinish_resp _ _ _ hiff]
          simp [Pg.hasTitleStr, Pg.applyBody]
      | jnum n =>
        cases bc with
        | some w =>
          cases w with
          | jbool b =>
            simp only [Pg.update, Pg.updateCompletedStep, Pg.updCompleted, Nat.zero_add]
            rw [Pg.updateFinish_resp _ _ _ hiff]
            simp [Pg.hasCompletedBool, Pg.applyBody]
          | jstr s2 => simp [Pg.update, Pg.updateCompletedStep, Pg.updateFinish,
              Pg.hasTitleStr, Pg.hasCompletedBool, Pg.applyBody]
          | jnum n2 => simp [Pg.update, Pg.updateCompletedStep, Pg.updateFinish,
              Pg.hasTitleStr, Pg.hasCompletedBool, Pg.applyBody]
          | jnull => simp [Pg.update, Pg.updateCompletedStep, Pg.updateFinish,
              Pg.hasTitleStr, Pg.hasCompletedBool, Pg.applyBody]
        | none => simp [Pg.update, Pg.updateCompletedStep, Pg.updateFinish,
            Pg.hasTitleStr, Pg.hasCompletedBool, Pg.applyBody]
      | jbool b0 =>
        cases bc with
        | some w =>
          cases w with
          | jbool b =>
            simp only [Pg.update, Pg.updateCompletedStep, Pg.updCompleted, Nat.zero_add]
            rw [Pg.updateFinish_resp _ _ _ hiff]
            simp [Pg.hasCompletedBool, Pg.applyBody]
          | jstr s2 => simp [Pg.update, Pg.updateCompletedStep, Pg.updateFinish,
              Pg.hasTitleStr, Pg.hasCompletedBool, Pg.applyBody]
          | jnum n2 => simp [Pg.update, Pg.updateCompletedStep, Pg.updateFinish,
              Pg.hasTitleStr, Pg.hasCompletedBool, Pg.applyBody]
          | jnull => simp [Pg.update, Pg.updateCompletedStep, Pg.updateFinish,
              Pg.hasTitleStr, Pg.hasCompletedBool, Pg.applyBody]
        | none => simp [Pg.update, Pg.updateCompletedStep, Pg.updateFinish,
            Pg.hasTitleStr, Pg.hasCompletedBool, Pg.applyBody]
      | jnull =>
        cases bc with
        | some w =>
          cases w with
          | jbool b =>
            simp only [Pg.update, Pg.updateCompletedStep, Pg.updCompleted, Nat.zero_add]
            rw [Pg.updateFinish_resp _ _ _ hiff]
            simp [Pg.hasCompletedBool, Pg.applyBody]
          | jstr s2 => simp [Pg.update, Pg.updateCompletedStep, Pg.updateFinish,
              Pg.hasTitleStr, Pg.hasCompletedBool, Pg.applyBody]
          | jnum n2 => simp [Pg.update, Pg.updateCompletedStep, Pg.updateFinish,
              Pg.hasTitleStr, Pg.hasCompletedBool, Pg.applyBody]
          | jnull => simp [Pg.update, Pg.updateCompletedStep, Pg.updateFinish,
              Pg.hasTitleStr, Pg.hasCompletedBool, Pg.applyBody]
        | none => simp [Pg.update, Pg.updateCompletedStep, Pg.updateFinish,
            Pg.hasTitleStr, Pg.hasCompletedBool, Pg.applyBody]
    | none =>
      cases bc with
      | some w =>
        cases w with
        | jbool b =>
          simp only [Pg.update, Pg.updateCompletedStep, Pg.updCompleted, Nat.zero_add]
          rw [Pg.updateFinish_resp _ _ _ hiff]
          simp [Pg.hasCompletedBool, Pg.applyBody]
        | jstr s2 => simp [Pg.update, Pg.updateCompletedStep, Pg.updateFinish,
            Pg.hasTitleStr, Pg.hasCompletedBool, Pg.applyBody]
        | jnum n2 => simp [Pg.update, Pg.updateCompletedStep, Pg.updateFinish,
            Pg.hasTitleStr, Pg.hasCompletedBool, Pg.applyBody]
        | jnull => simp [Pg.update, Pg.updateCompletedStep, Pg.updateFinish,
            Pg.hasTitleStr, Pg.hasCompletedBool, Pg.applyBody]
      | none => simp [Pg.update, Pg.updateCompletedStep, Pg.updateFinish,
          Pg.hasTitleStr, Pg.hasCompletedBool, Pg.applyBody]
  · by_cases hex : ∃ t ∈ db.tasks, t.id = tid ∧ t.owner_id = uid
    · have hm : Pg.matchedCount db.tasks uid tid ≠ 0 := fun h0 => (hiff.mp h0) hex
      simp [Pg.delete, hm, hex]
    · have hm : Pg.matchedCount db.tasks uid tid = 0 := hiff.mpr hex
      simp [Pg.delete, hm, hex]

/-- Witness for C3: user 1 updates their own task 1 with a trimmed title and a
completed flag; exactly that row changes and the response is success, while
user 1 deleting absent id 9 gets 404 with the store unchanged. -/
theorem update_delete_owner_scoped_witness :
    Pg.update sampleDb 1 1
        { title := some (.jstr " Walk dog "), completed := some (.jbool true) } =
      ({ users := sampleDb.users,
         tasks := [{ id := 1, owner_id := 1, title := "Walk dog", completed := true },
                   { id := 2, owner_id := 2, title := "Other task", completed := true }],
         nextUserId := 2, nextTaskId := 3 },
       Resp.success)
    ∧ (Pg.delete sampleDb 1 9).2 = Resp.err 404 "Task not found." := by
  have h := update_delete_owner_scoped sampleDb 1 1
      { title := some (.jstr " Walk dog "), completed := some (.jbool true) }
      (by intro s hs; injection hs with h1; injection h1 with h2; subst h2; decide)
  have h9 := update_delete_owner_scoped sampleDb 1 9
      { title := none, completed := none } (by intro s hs; cases hs)
  constructor
  · rw [h.1]
    decide
  · rw [h9.2]
    decide

instance : IsTotal Pg.Task (fun a b => b.id ≤ a.id) :=
  ⟨fun a b => Nat.le_total b.id a.id⟩

instance : IsTrans Pg.Task (fun a b => b.id ≤ a.id) :=
  ⟨fun _ _ _ h1 h2 => Nat.le_trans h2 h1⟩

/-- C6: the task list contains exactly the caller's tasks, newest first (ids
descending — strictly so when ids are unique, as the primary key guarantees);
and in the client, under `sortBy = "priority"`, three tasks with priorities
low, high and medium are displayed in the order high, medium, low whatever
their creation order. -/
theorem list_order_and_priority_sort :
    (∀ (db : Pg.Db) (uid : Nat),
      (Pg.listFor db uid).Perm
          ((db.tasks.filter (fun t => decide (t.owner_id = uid))).map Pg.toOut)
      ∧ (Pg.listFor db uid).Pairwise (fun a b => b.id ≤ a.id)
      ∧ (∀ t ∈ db.tasks, t.owner_id = uid → Pg.toOut t ∈ Pg.listFor db uid)
      ∧ (db.tasks.Pairwise (fun a b => a.id ≠ b.id) →
          (Pg.listFor db uid).Pairwise (fun a b => b.id < a.id)))
    ∧ (∀ t1 t2 t3 : Client.CTask,
        t1.priority = some "low" → t2.priority = some "high" →
        t3.priority = some "medium" →
        Client.visibleTasks "all" "priority" [t1, t2, t3] = [t2, t3, t1]
        ∧ Client.visibleTasks "all" "priority" [t1, t3, t2] = [t2, t3, t1]
        ∧ Client.visibleTasks "all" "priority" [t2, t1, t3] = [t2, t3, t1]
        ∧ Client.visibleTasks "all" "priority" [t2, t3, t1] = [t2, t3, t1]
        ∧ Client.visibleTasks "all" "priority" [t3, t1, t2] = [t2, t3, t1]
        ∧ Client.visibleTasks "all" "priority" [t3, t2, t1] = [t2, t3, t1]) := by
  constructor
  · intro db uid
    refine ⟨?_, ?_, ?_, ?_⟩
    · exact (List.perm_insertionSort _ _).map Pg.toOut
    · exact List.pairwise_map.mpr
        ((List.sorted_insertionSort (fun a b : Pg.Task => b.id ≤ a.id) _).imp (fun h => h))
    · intro t ht hown
      rw [Pg.listFor, List.mem_map]
      exact ⟨t, (List.mem_insertionSort _).mpr
        (List.mem_filter.mpr ⟨ht, by simp [hown]⟩), rfl⟩
    · intro hids
      have hsubl : (db.tasks.filter (fun t => decide (t.owner_id = uid))).Pairwise
          (fun a b : Pg.Task => a.id ≠ b.id) :=
        List.Pairwise.sublist (List.filter_sublist _) hids
      have hperm := List.perm_insertionSort (fun a b : Pg.Task => b.id ≤ a.id)
        (db.tasks.filter (fun t => decide (t.owner_id = uid)))
      have hsort_ne : (List.insertionSort (fun a b : Pg.Task => b.id ≤ a.id)
          (db.tasks.filter (fun t => decide (t.owner_id = uid)))).Pairwise
          (fun a b : Pg.Task => a.id ≠ b.id) :=
        (hperm.pairwise_iff (fun h e => h e.symm)).mpr hsubl
      have hsort_le := List.sorted_insertionSort (fun a b : Pg.Task => b.id ≤ a.id)
        (db.tasks.filter (fun t => decide (t.owner_id = uid)))
      have hcomb := List.Pairwise.and hsort_le hsort_ne
      refine List.pairwise_map.mpr (hcomb.imp ?_)
      intro a b h
      exact Nat.lt_of_le_of_ne h.1 h.2.symm
  · intro t1 t2 t3 h1 h2 h3
    have r1 : Client.rankOf t1 = 1 := by simp [Client.rankOf, Client.priorityRank, h1]
    have r2 : Client.rankOf t2 = 3 := by simp [Client.rankOf, Client.priorityRank, h2]
    have r3 : Client.rankOf t3 = 2 := by simp [Client.rankOf, Client.priorityRank, h3]
    have hfix : ∀ l : List Client.CTask, Client.visibleTasks "all" "priority" l =
        List.insertionSort (fun a b => Client.rankOf b ≤ Client.rankOf a) l := by
      intro l
      simp [Client.visibleTasks, List.filter_true]
    refine ⟨?_, ?_, ?_, ?_, ?_, ?_⟩ <;>
      rw [hfix] <;> simp [List.insertionSort, List.orderedInsert, r1, r2, r3]

/-- Witness for C6: on the sample store user 1's list is exactly their task,
and three concrete tasks with priorities low, high, medium sort to high,
medium, low for a creation order low-then-high-then-medium. -/
theorem list_order_and_priority_sort_witness :
    (Pg.toOut { id := 1, owner_id := 1, title := "Buy milk", completed := false }
        ∈ Pg.listFor sampleDb 1)
    ∧ Client.visibleTasks "all" "priority"
        [{ id := 1, title := "a", completed := false, priority := some "low",
           status := none, dueDate := none },
         { id := 2, title := "b", completed := false, priority := some "high",
           status := none, dueDate := none },
         { id := 3, title := "c", completed := false, priority := some "medium",
           status := none, dueDate := none }] =
        [{ id := 2, title := "b", completed := false, priority := some "high",
           status := none, dueDate := none },
         { id := 3, title := "c", completed := false, priority := some "medium",
           status := none, dueDate := none },
         { id := 1, title := "a", completed := false, priority := some "low",
           status := none, dueDate := none }] :=
  ⟨(list_order_and_priority_sort.1 sampleDb 1).2.2.1
      { id := 1, owner_id := 1, title := "Buy milk", completed := false }
      (by decide) (by decide),
   (list_order_and_priority_sort.2
      { id := 1, title := "a", completed := false, priority := some "low",
        status := none, dueDate := none }
      { id := 2, title := "b", completed := false, priority := some "high",
        status := none, dueDate := none }
      { id := 3, title := "c", completed := false, priority := some "medium",
        status := none, dueDate := none } rfl rfl rfl).1⟩

/-! ## Correspondence between the SQLite and Postgres variants -/

/-- Serializing an abstracted row equals the SQLite serialization. -/
theorem toOut_abs (t : Sq.Task) : Pg.toOut (absTask t) = Sq.toOut t := rfl

/-- The owner-scoped row count agrees across the abstraction. -/
theorem matchedCount_abs (ts : List Sq.Task) (uid tid : Nat) :
    Pg.matchedCount (ts.map absTask) uid tid = Sq.matchedCount ts uid tid := by
  rw [Pg.matchedCount, List.filter_map, List.length_map]
  rfl

/-- The task list route computes the same response in both variants. -/
theorem listFor_abs (db : Sq.Db) (uid : Nat) :
    Pg.listFor (absDb db) uid = Sq.listFor db uid := by
  rw [Pg.listFor, Sq.listFor]
  show (List.insertionSort _
      ((db.tasks.map absTask).filter (fun t => decide (t.owner_id = uid)))).map Pg.toOut = _
  rw [List.filter_map,
    insertionSort_map absTask (fun a b : Sq.Task => b.id ≤ a.id)
      (fun a b : Pg.Task => b.id ≤ a.id) (fun _ _ => Iff.rfl),
    List.map_map]
  rfl

/-- The title UPDATE statement commutes with the abstraction. -/
theorem updTitle_abs (db : Sq.Db) (uid tid : Nat) (s : String) :
    Pg.updTitle (absDb db) uid tid s =
      (absDb (Sq.updTitle db uid tid s).1, (Sq.updTitle db uid tid s).2) := by
  have htasks : (db.tasks.map absTask).map
        (fun t => if t.id = tid ∧ t.owner_id = uid then { t with title := s } else t) =
      (db.tasks.map
        (fun t => if t.id = tid ∧ t.owner_id = uid then { t with title := s } else t)).map
        absTask := by
    rw [List.map_map, List.map_map]
    apply List.map_congr_left
    intro a _
    by_cases h : a.id = tid ∧ a.owner_id = uid
    · simp [Function.comp, absTask, h]
    · simp [Function.comp, absTask, h]
  simp [Pg.updTitle, Sq.updTitle, absDb, htasks, matchedCount_abs]

/-- The completed UPDATE statement commutes with the abstraction (`completed ? 1 : 0`
on the SQLite side abstracts back to the boolean). -/
theorem updCompleted_abs (db : Sq.Db) (uid tid : Nat) (b : Bool) :
    Pg.updCompleted (absDb db) uid tid b =
      (absDb (Sq.updCompleted db uid tid (if b then 1 else 0)).1,
       (Sq.updCompleted db uid tid (if b then 1 else 0)).2) := by
  have habs : absTask ∘ (fun t : Sq.Task =>
        if t.id = tid ∧ t.owner_id = uid then { t with completed := if b then 1 else 0 }
        else t) =
      (fun t : Pg.Task =>
        if t.id = tid ∧ t.owner_id = uid then { t with completed := b } else t) ∘ absTask := by
    funext a
    by_cases h : a.id = tid ∧ a.owner_id = uid
    · have hb : (decide ((if b then (1 : Int) else 0) ≠ 0)) = b := by cases b <;> decide
      simp [Function.comp, absTask, h, hb]
    · simp [Function.comp, absTask, h]
  have htasks : (db.tasks.map absTask).map
        (fun t => if t.id = tid ∧ t.owner_id = uid then { t with completed := b } else t) =
      (db.tasks.map (fun t => if t.id = tid ∧ t.owner_id = uid
          then { t with completed := if b then 1 else 0 } else t)).map absTask := by
    rw [List.map_map, List.map_map, habs]
  simp [Pg.updCompleted, Sq.updCompleted, absDb, htasks, matchedCount_abs]

/-- The whole update handler commutes with the abstraction: same response,
corresponding states. -/
theorem update_abs (db : Sq.Db) (uid tid : Nat) (body : UpdateBody) :
    Pg.update (absDb db) uid tid body =
      (absDb (Sq.update db uid tid body).1, (Sq.update db uid tid body).2) := by
  obtain ⟨bt, bc⟩ := body
  have hcs : ∀ (db0 : Sq.Db) (ch : Nat),
      Pg.updateCompletedStep (absDb db0) uid tid ⟨bt, bc⟩ ch =
        (absDb (Sq.updateCompletedStep db0 uid tid ⟨bt, bc⟩ ch).1,
         (Sq.updateCompletedStep db0 uid tid ⟨bt, bc⟩ ch).2) := by
    intro db0 ch
    have hfin : ∀ (db1 : Sq.Db) (n : Nat),
        Pg.updateFinish (absDb db1) n =
          (absDb (Sq.updateFinish db1 n).1, (Sq.updateFinish db1 n).2) := by
      intro db1 n
      by_cases hn : n = 0 <;> simp [Pg.updateFinish, Sq.updateFinish, hn]
    cases bc with
    | none => exact hfin db0 ch
    | some w =>
      cases w with
      | jstr s2 => exact hfin db0 ch
      | jnum n2 => exact hfin db0 ch
      | jnull => exact hfin db0 ch
      | jbool b =>
        simp only [Pg.updateCompletedStep, Sq.updateCompletedStep, updCompleted_abs]
        exact hfin _ _
  cases bt with
  | none => exact hcs db 0
  | some v =>
    cases v with
    | jnum n => exact hcs db 0
    | jbool b0 => exact hcs db 0
    | jnull => exact hcs db 0
    | jstr s =>
      by_cases hlen : (jsTrim s).length < 2
      · simp [Pg.update, Sq.update, hlen]
      · simp only [Pg.update, Sq.update, hlen, if_false, updTitle_abs]
        exact hcs _ _

/-- The delete handler commutes with the abstraction. -/
theorem delete_abs (db : Sq.Db) (uid tid : Nat) :
    Pg.delete (absDb db) uid tid =
      (absDb (Sq.delete db uid tid).1, (Sq.delete db uid tid).2) := by
  have htasks : (db.tasks.map absTask).filter
        (fun t => ! decide (t.id = tid ∧ t.owner_id = uid)) =
      (db.tasks.filter (fun t => ! decide (t.id = tid ∧ t.owner_id = uid))).map absTask := by
    rw [List.filter_map]
    rfl
  have hm : Pg.matchedCount (db.tasks.map absTask) uid tid = Sq.matchedCount db.tasks uid tid :=
    matchedCount_abs db.tasks uid tid
  have hpg : Pg.delete (absDb db) uid tid =
      ({ users := db.users,
         tasks := (db.tasks.map absTask).filter
           (fun t => ! decide (t.id = tid ∧ t.owner_id = uid)),
         nextUserId := db.nextUserId, nextTaskId := db.nextTaskId },
       if Pg.matchedCount (db.tasks.map absTask) uid tid = 0
       then Resp.err 404 "Task not found." else Resp.success) := rfl
  have hsq : Sq.delete db uid tid =
      ({ users := db.users,
         tasks := db.tasks.filter (fun t => ! decide (t.id = tid ∧ t.owner_id = uid)),
         nextUserId := db.nextUserId, nextTaskId := db.nextTaskId },
       if Sq.matchedCount db.tasks uid tid = 0
       then Resp.err 404 "Task not found." else Resp.success) := rfl
  rw [hpg, hsq, htasks, hm]
  rfl

/-- The create handler commutes with the abstraction. -/
theorem create_abs (db : Sq.Db) (uid : Nat) (titleRaw : String) :
    Pg.create (absDb db) uid titleRaw =
      (absDb (Sq.create db uid titleRaw).1, (Sq.create db uid titleRaw).2) := by
  by_cases hlen : (jsTrim titleRaw).length < 2
  · simp [Pg.create, Sq.create, hlen]
  · simp [Pg.create, Sq.create, hlen, absDb, Pg.toOut, absTask]

/-- The register handler commutes with the abstraction. -/
theorem register_abs (c : Crypto) (secret : String) (now : Nat) (db : Sq.Db)
    (e p : String) :
    Pg.register c secret now (absDb db) e p =
      (absDb (Sq.register c secret now db e p).1, (Sq.register c secret now db e p).2) := by
  by_cases h1 : jsIncludes (jsToLower (jsTrim e)) '@'
  · by_cases h2 : p.length < 4
    · simp [Pg.register, Sq.register, h1, h2]
    · cases hf : db.users.find? (fun u => u.email == jsToLower (jsTrim e)) with
      | some u => simp [Pg.register, Sq.register, h1, h2, absDb, hf]
      | none => simp [Pg.register, Sq.register, h1, h2, absDb, hf]
  · simp [Pg.register, Sq.register, h1]

/-- The login handler commutes with the abstraction. -/
theorem login_abs (c : Crypto) (secret : String) (now : Nat) (db : Sq.Db)
    (e p : String) :
    Pg.login c secret now (absDb db) e p =
      (absDb (Sq.login c secret now db e p).1, (Sq.login c secret now db e p).2) := by
  cases hf : db.users.find? (fun u => u.email == jsToLower (jsTrim e)) with
  | none => simp [Pg.login, Sq.login, absDb, hf]
  | some u =>
    by_cases hc : c.check p u.password_hash <;>
      simp [Pg.login, Sq.login, absDb, hf, hc]

/-- One dispatched request commutes with the abstraction: identical response,
corresponding next states. -/
theorem step_abs (c : Crypto) (secret : String) (now : Nat) (db : Sq.Db) (req : Req) :
    Pg.step c secret now (absDb db) req =
      (absDb (Sq.step c secret now db req).1, (Sq.step c secret now db req).2) := by
  cases req with
  | root => rfl
  | health => rfl
  | register e p => exact register_abs c secret now db e p
  | login e p => exact login_abs c secret now db e p
  | listTasks auth =>
    cases hra : requireAuth secret now auth with
    | error r => simp [Pg.step, Sq.step, hra]
    | ok ident => simp [Pg.step, Sq.step, hra, listFor_abs]
  | create auth title =>
    cases hra : requireAuth secret now auth with
    | error r => simp [Pg.step, Sq.step, hra]
    | ok ident => simp [Pg.step, Sq.step, hra, create_abs]
  | update auth tid body =>
    cases hra : requireAuth secret now auth with
    | error r => simp [Pg.step, Sq.step, hra]
    | ok ident => simp [Pg.step, Sq.step, hra, update_abs]
  | delete auth tid =>
    cases hra : requireAuth secret now auth with
    | error r => simp [Pg.step, Sq.step, hra]
    | ok ident => simp [Pg.step, Sq.step, hra, delete_abs]

/-- Whole request traces commute with the abstraction. -/
theorem run_abs (c : Crypto) (secret : String) (now : Nat) (reqs : List Req) :
    ∀ db : Sq.Db,
      Pg.run c secret now (absDb db) reqs =
        (absDb (Sq.run c secret now db reqs).1, (Sq.run c secret now db reqs).2) := by
  induction reqs with
  | nil => intro db; rfl
  | cons r rs ih =>
    intro db
    simp only [Pg.run, Sq.run, step_abs, ih]

/-- C9: the SQLite-backed and Postgres-backed servers expose identical
external behavior. Request by request, on corresponding stores the two
variants return literally equal responses and move to corresponding stores;
consequently every request trace from a fresh database produces the same
sequence of responses (status and body) in both variants. -/
theorem variants_identical_behavior :
    (∀ (c : Crypto) (secret : String) (now : Nat) (req : Req) (db : Sq.Db),
      (Sq.step c secret now db req).2 = (Pg.step c secret now (absDb db) req).2
      ∧ absDb (Sq.step c secret now db req).1 = (Pg.step c secret now (absDb db) req).1)
    ∧ (∀ (c : Crypto) (secret : String) (now : Nat) (reqs : List Req),
      (Sq.run c secret now Sq.initDb reqs).2 = (Pg.run c secret now Pg.initDb reqs).2) := by
  constructor
  · intro c secret now req db
    rw [step_abs]
    exact ⟨rfl, rfl⟩
  · intro c secret now reqs
    have h := run_abs c secret now reqs Sq.initDb
    have hinit : absDb Sq.initDb = Pg.initDb := rfl
    rw [hinit] at h
    rw [h]
